import Mathlib

/-!
Verification development for the trading-bots exchange-client layer.

The repository's Python code is shallowly embedded here:
  * `Decimal` / `float` amounts and timestamps become `ℚ` (the code only
    adds, subtracts, multiplies, divides and compares them);
  * dictionaries become association lists, `None` becomes `Option.none`;
  * code that can raise becomes `Except PyError`, with one `PyError`
    constructor per Python exception class that the embedded code raises;
  * enum coercions such as `Side(order["descr"]["type"])` are embedded by
    letting the payload carry the already-parsed enum value (the coercion
    is a bijection on valid inputs and raises on invalid ones, which the
    claims do not exercise).

Sources embedded:
  * `src/trading_bots/contrib/exchanges/kraken/clients.py`
  * `src/example_bots/any_to_any/bot.py` (`AnyToAny._get_market`)
  * `src/example_bots/technical_analysis/bot.py` (`TechnicalAnalysis.get_trades`)
The shared `trading_bots.contrib` models/clients/errors modules are not in
the repository snapshot; the few facts needed from them (Money arithmetic,
`safe_money`, the common-currency translation hook) are modelled from the
spec and marked as such.
-/

namespace TradingBots

deriving instance DecidableEq for Except

/-- Python exceptions raised by the embedded code. -/
inductive PyError where
  | notSupported : Option String → PyError
  | notImplementedError : Option String → PyError
  | keyError : PyError
  | assertionError : PyError
  deriving DecidableEq

/-- `Side` enum: values "buy" and "sell". -/
inductive Side where
  | buy : Side
  | sell : Side
  deriving DecidableEq

/-- `OrderType` enum (the subset the Kraken adapter coerces to). -/
inductive OrderType where
  | limit : OrderType
  | market : OrderType
  deriving DecidableEq

/-- `Market`: ordered pair of base and quote currency codes. -/
structure Market where
  base : String
  quote : String
  deriving DecidableEq

/-- Modelled from the spec: `Money` is an immutable pair of a decimal
amount and a currency code (the `Money` class lives in the
`trading_bots.contrib.models` module, absent from the snapshot). -/
structure Money where
  amount : ℚ
  currency : String
  deriving DecidableEq

/-- Modelled from the spec: `Money` addition requires identical currency
and fails with `CurrencyMismatch` otherwise; embedded as `Option`. -/
def moneyAdd (a b : Money) : Option Money :=
  if a.currency = b.currency then some ⟨a.amount + b.amount, a.currency⟩ else none

/-- Modelled from the spec: division of a `Money` by a plain scalar is
allowed and yields `Money` in the same currency. -/
def moneyDivScalar (a : Money) (k : ℚ) : Money :=
  ⟨a.amount / k, a.currency⟩

/-- Modelled from the spec: `Money` subtraction, defined only when both
operands are known and share a currency (the adapters subtract two
`safe_money` results; absent fields are a distinct unknown value). -/
def moneySub (a b : Option Money) : Option Money :=
  match a, b with
  | some x, some y =>
      if x.currency = y.currency then some ⟨x.amount - y.amount, x.currency⟩ else none
  | _, _ => none

/-- `Balance`: total, free and used `Money` plus the optional info note the
Kraken adapter attaches when the asset is absent from the response. -/
structure Balance where
  total : Money
  free : Money
  used : Money
  info : Option String
  deriving DecidableEq

/-- `KrakenBase.common_currencies` (clients.py lines 25-30). -/
def common_currencies : List (String × String) :=
  [("XXBT", "BTC"), ("XETH", "ETH"), ("XXLM", "XLM"), ("ZUSD", "USD")]

/-- Association-list lookup, embedding Python `dict.get`. -/
def alistGet {α : Type} (l : List (String × α)) (k : String) : Option α :=
  match l with
  | [] => none
  | (k₁, v) :: rest => if k₁ = k then some v else alistGet rest k

/-- Modelled from the spec: the common-currency translation hook maps
exchange asset codes to common codes through the adapter's table, leaving
unmapped codes unchanged (`_parse_common_currency` lives in the base
client module, absent from the snapshot; the spec calls it a bidirectional
mapping consulted on every parse and outbound request). -/
def parse_common_currency (c : String) : String :=
  (alistGet common_currencies c).getD c

/-- Modelled from the spec: the reverse direction of the translation hook
(`_parse_common_currency(c, reverse=True)`), common code to exchange code. -/
def parse_common_currency_rev (c : String) : String :=
  (alistGet (common_currencies.map (fun p => (p.2, p.1))) c).getD c

/-- `KrakenBase._get_market_from_pair` (clients.py lines 57-64): scan the
market list for the one whose reverse-translated `base ++ quote` equals
the pair string; raise `KeyError` when none matches. -/
def get_market_from_pair (markets : List Market) (pair : String) : Except PyError Market :=
  match markets with
  | [] => .error .keyError
  | m :: rest =>
      if parse_common_currency_rev m.base ++ parse_common_currency_rev m.quote = pair then
        .ok m
      else get_market_from_pair rest pair

/-- One entry of the Kraken `open_orders` response as `_balance` reads it:
`order["descr"]["pair"]`, `Side(order["descr"]["type"])`,
`Decimal(order["vol"])`, `Decimal(order["descr"]["price"])`. -/
structure KrakenOpenOrder where
  pair : String
  side : Side
  vol : ℚ
  price : ℚ
  deriving DecidableEq

/-- The order loop of `KrakenWallet._balance` (clients.py lines 157-168):
walk the open orders, resolving each order's market from its pair string
(propagating `KeyError`), and commit amounts out of `free` into `used`:
the full amount for a SELL in the market's base currency, amount × price
for a BUY in the market's quote currency. -/
def balanceLoop (currency : String) (markets : List Market) (free used : ℚ) :
    List KrakenOpenOrder → Except PyError (ℚ × ℚ)
  | [] => .ok (free, used)
  | o :: rest =>
      match get_market_from_pair markets o.pair with
      | .error e => .error e
      | .ok m =>
          if o.side = Side.sell ∧ currency = m.base then
            balanceLoop currency markets (free - o.vol) (used + o.vol) rest
          else if o.side = Side.buy ∧ currency = m.quote then
            balanceLoop currency markets (free - o.vol * o.price) (used + o.vol * o.price) rest
          else
            balanceLoop currency markets free used rest

/-- `KrakenWallet._balance` (clients.py lines 145-173): look the wallet's
currency up in the balance response under its exchange asset code; when
absent, return an all-zero `Balance` with an info note; otherwise start
from `free = total`, `used = 0` and fold the open orders through
`balanceLoop`. -/
def kraken_balance (currency : String) (markets : List Market)
    (balanceResult : List (String × ℚ)) (openOrders : List KrakenOpenOrder) :
    Except PyError Balance :=
  let asset := parse_common_currency_rev currency
  match alistGet balanceResult asset with
  | none =>
      let zero : Money := ⟨0, currency⟩
      .ok ⟨zero, zero, zero, some "balance not found"⟩
  | some total =>
      match balanceLoop currency markets total 0 openOrders with
      | .error e => .error e
      | .ok (free, used) =>
          .ok ⟨⟨total, currency⟩, ⟨free, currency⟩, ⟨used, currency⟩, none⟩

/-- The amount a single open order commits against the wallet's currency,
as `_balance`'s loop body accumulates it: the full order amount for a SELL
in the market's base, amount × price for a BUY in the market's quote,
nothing otherwise. -/
def orderCommitment (currency : String) (markets : List Market) (o : KrakenOpenOrder) : ℚ :=
  match get_market_from_pair markets o.pair with
  | .error _ => 0
  | .ok m =>
      if o.side = Side.sell ∧ currency = m.base then o.vol
      else if o.side = Side.buy ∧ currency = m.quote then o.vol * o.price
      else 0

/-- Total committed amount over a list of open orders. -/
def committedSum (currency : String) (markets : List Market)
    (orders : List KrakenOpenOrder) : ℚ :=
  (orders.map (orderCommitment currency markets)).sum

/-- `Ticker` domain object, the fields `KrakenMarketBase._parse_ticker`
fills (the raw `info` blob is omitted; `change`, `percentage` and
`average` are set to `None` by the source). -/
structure Ticker where
  market : Market
  bid : Money
  ask : Money
  mid : Money
  last : Money
  open_px : Option Money
  high : Money
  low : Money
  close : Money
  change : Option Money
  percentage : Option Money
  average : Option Money
  vwap : Money
  deriving DecidableEq

/-- The fields of a Kraken ticker payload as `_parse_ticker` reads them:
`b`, `a`, `c` hold the first element of the corresponding response list,
`h`, `l`, `p` the second; `o` is `ticker.get("o")`, `none` when absent. -/
structure KrakenTickerPayload where
  b : ℚ
  a : ℚ
  c : ℚ
  o : Option ℚ
  h : ℚ
  l : ℚ
  p : ℚ
  deriving DecidableEq

/-- `KrakenMarketBase._parse_ticker` (clients.py lines 94-117): every price
field is `Money` in the market's quote currency, `mid = (bid + ask) / 2`,
`close = last`. `Money` addition checks currency equality (spec), hence
the `Option` result. -/
def kraken_parse_ticker (market : Market) (ticker : KrakenTickerPayload) : Option Ticker :=
  let currency := market.quote
  let bid : Money := ⟨ticker.b, currency⟩
  let ask : Money := ⟨ticker.a, currency⟩
  let last : Money := ⟨ticker.c, currency⟩
  let open_px : Option Money := ticker.o.map (fun v => ⟨v, currency⟩)
  match moneyAdd bid ask with
  | none => none
  | some s =>
      some ⟨market, bid, ask, moneyDivScalar s 2, last, open_px,
        ⟨ticker.h, currency⟩, ⟨ticker.l, currency⟩, last,
        none, none, none, ⟨ticker.p, currency⟩⟩

/-- `Order` domain object, the fields `KrakenTrading._parse_order` fills
(the raw `info` blob and the redundant `datetime` rendering of
`timestamp` are omitted). -/
structure Order where
  id : Option String
  market : Market
  type : Option OrderType
  side : Side
  status : String
  amount : Option Money
  remaining : Option Money
  filled : Option Money
  cost : Option Money
  fee : Option Money
  price : Option Money
  timestamp : ℚ
  deriving DecidableEq

/-- A Kraken order payload as `_parse_order` reads it; `descr_` prefixes
the fields of `order["descr"]`.  Numeric fields that `safe_money` guards
are `Option ℚ` (`none` when absent from the payload). -/
structure KrakenOrderPayload where
  id : Option String
  descr_type : Side
  descr_ordertype : String
  descr_pair : String
  descr_price : Option ℚ
  descr_price2 : Option ℚ
  opentm : ℚ
  vol : Option ℚ
  vol_exec : Option ℚ
  cost : Option ℚ
  price : Option ℚ
  fee : Option ℚ
  oflags : String
  status : String
  deriving DecidableEq

/-- `OrderType(description["ordertype"])` with `ValueError` caught and
turned into `None` (clients.py lines 267-270). -/
def orderTypeOf (s : String) : Option OrderType :=
  if s = "limit" then some OrderType.limit
  else if s = "market" then some OrderType.market
  else none

/-- Modelled from the spec: `BaseClient.safe_money` (base client module,
absent from the snapshot) reads an optional payload field as `Money`,
leaving absent fields as a distinct unknown value rather than zero. -/
def safe_money (v : Option ℚ) (currency : String) : Option Money :=
  v.map (fun x => (⟨x, currency⟩ : Money))

/-- Python `s.find(sub) >= 0`: substring containment. -/
def strContains (s sub : String) : Bool :=
  (s.splitOn sub).length > 1

/-- `KrakenTrading._parse_order` (clients.py lines 264-309): resolve the
market from the pair string (propagating `KeyError`), read amount and
filled in the base currency, `remaining = amount - filled`, cost in the
quote currency, fall price back through `descr.price`, `descr.price2`,
`order.price` (the Python `if not price` falsiness test is modelled from
the spec as absence), and determine the fee currency from the `fciq` /
`fcib` flags when a fee field is present. -/
def kraken_parse_order (markets : List Market) (order : KrakenOrderPayload) :
    Except PyError Order :=
  match get_market_from_pair markets order.descr_pair with
  | .error e => .error e
  | .ok market =>
      let side := order.descr_type
      let order_type := orderTypeOf order.descr_ordertype
      let amount := safe_money order.vol market.base
      let filled := safe_money order.vol_exec market.base
      let remaining := moneySub amount filled
      let cost := safe_money order.cost market.quote
      let price :=
        match safe_money order.descr_price market.quote with
        | some p => some p
        | none =>
            match safe_money order.descr_price2 market.quote with
            | some p => some p
            | none => safe_money order.price market.quote
      let fee :=
        match order.fee with
        | none => none
        | some fee_amount =>
            if strContains order.oflags "fciq" then some (⟨fee_amount, market.quote⟩ : Money)
            else if strContains order.oflags "fcib" then some (⟨fee_amount, market.base⟩ : Money)
            else none
      .ok ⟨order.id, market, order_type, side, order.status,
        amount, remaining, filled, cost, fee, price, order.opentm⟩

/-- `KrakenMarketBase._trading_fees` (clients.py lines 84-86): `raise
NotSupported`.  The `TradingFees` result type is never produced, embedded
as `Unit`. -/
def kraken_trading_fees : Except PyError Unit :=
  .error (.notSupported none)

/-- `KrakenMarketBase._trades_since` (clients.py lines 125-127): `raise
NotImplementedError` (a TODO stub, not `NotSupported`).  The `Trade`
result type is never produced, embedded as `Unit`. -/
def kraken_trades_since (_since : ℤ) : Except PyError (List Unit) :=
  .error (.notImplementedError none)

/-- `KrakenTrading._cancel_orders` (clients.py lines 253-254): `raise
NotSupported`. -/
def kraken_cancel_orders (_order_ids : Option (List String)) : Except PyError Unit :=
  .error (.notSupported none)

/-- `KrakenWallet._deposits_since` (clients.py lines 186-187). -/
def kraken_deposits_since (_since : ℤ) : Except PyError (List Unit) :=
  .error (.notSupported (some "Kraken only returns recent trades"))

/-- `KrakenWallet._withdrawals_since` (clients.py lines 200-201). -/
def kraken_withdrawals_since (_since : ℤ) : Except PyError (List Unit) :=
  .error (.notSupported (some "Kraken only returns recent trades"))

/-- Whether a call result is a raised `NotSupported` error. -/
def isNotSupportedErr {α : Type} : Except PyError α → Bool
  | .error (.notSupported _) => true
  | _ => false

/-- Whether some published market pairs the two currencies in either
order (the pairing notion of the spec's market-resolution rule). -/
def marketPairs (markets : List Market) (x y : String) : Bool :=
  markets.any (fun m => (m.base = x && m.quote = y) || (m.base = y && m.quote = x))

/-- `AnyToAny._get_market` (any_to_any/bot.py lines 157-167): membership
checks on the lists of published bases and published quotes, taken
independently; `raise NotImplementedError` when both fail. -/
def anyToAny_get_market (markets : List Market) (from_currency to_currency : String) :
    Except PyError Market :=
  let bases := markets.map Market.base
  let quotes := markets.map Market.quote
  if from_currency ∈ bases ∧ to_currency ∈ quotes then
    .ok ⟨from_currency, to_currency⟩
  else if from_currency ∈ quotes ∧ to_currency ∈ bases then
    .ok ⟨to_currency, from_currency⟩
  else
    .error (.notImplementedError (some "No compatible market found!"))

/-- One stored/accumulated trade record of
`TechnicalAnalysis.get_trades`: a dict with `timestamp`, `rate`,
`amount`. -/
structure TradeRec where
  timestamp : ℚ
  rate : ℚ
  amount : ℚ
  deriving DecidableEq

/-- One raw exchange trade as `_get_trades_call` reads it: `date`,
`price`, `amount`, and `type` ("0" buy, "1" sell). -/
structure RawTrade where
  date : ℚ
  price : ℚ
  amount : ℚ
  type : String
  deriving DecidableEq

/-- Insertion step of a stable sort by timestamp (equal keys keep their
original relative order, as Python's `list.sort` guarantees). -/
def insertByTs (x : TradeRec) : List TradeRec → List TradeRec
  | [] => [x]
  | y :: ys => if x.timestamp ≤ y.timestamp then x :: y :: ys else y :: insertByTs x ys

/-- Stable sort by timestamp, embedding
`trades.sort(key=itemgetter('timestamp'))`. -/
def sortByTs : List TradeRec → List TradeRec
  | [] => []
  | x :: xs => insertByTs x (sortByTs xs)

/-- `prev_trades[0]['timestamp']` (0 when empty; only used under a
non-emptiness guard). -/
def firstTs (l : List TradeRec) : ℚ := (l.headD ⟨0, 0, 0⟩).timestamp

/-- `prev_trades[-1]['timestamp']` (0 when empty; only used under a
non-emptiness guard). -/
def lastTs (l : List TradeRec) : ℚ := (l.getLastD ⟨0, 0, 0⟩).timestamp

/-- Lines 139-154 of technical_analysis/bot.py: pick the query cursor and
the records to keep.  Non-empty stored records first pass
`assert first_trade < last_trade` (an `AssertionError` otherwise); then
a "since" timestamp strictly inside the stored range resumes from the
last stored timestamp keeping the records, and anything else starts from
the requested timestamp with the records discarded. -/
def chooseQueryStart (prev_trades : List TradeRec) (from_timestamp : ℚ) :
    Except PyError (ℚ × List TradeRec) :=
  if prev_trades = [] then .ok (from_timestamp, [])
  else
    let first_trade := firstTs prev_trades
    let last_trade := lastTs prev_trades
    if first_trade < last_trade then
      if first_trade < from_timestamp ∧ from_timestamp < last_trade then
        .ok (last_trade, prev_trades)
      else
        .ok (from_timestamp, [])
    else .error .assertionError

/-- `TechnicalAnalysis._get_trades_call` (lines 191-203): keep raw trades
dated strictly after the cursor, mapping them to records whose amount is
negated for sells; sort by timestamp; the new cursor is the last
timestamp + 1, or the unchanged cursor on an empty result.  (The
day/hour interval choice only selects which raw page the exchange
returns, which is an input here.) -/
def getTradesCall (page : List RawTrade) (query_timestamp : ℚ) : List TradeRec × ℚ :=
  let trades := (page.filter (fun t => query_timestamp < t.date)).map
    (fun t => (⟨t.date, t.price, t.amount * (if t.type = "0" then 1 else -1)⟩ : TradeRec))
  let trades := sortByTs trades
  let last_timestamp :=
    match trades.getLast? with
    | some t => t.timestamp + 1
    | none => query_timestamp
  (trades, last_timestamp)

/-- The polling loop of `get_trades` (lines 159-185): while the previous
page held exactly 1000 records, fetch a page, extend the accumulator,
and keep it sorted by timestamp.  The exchange's successive responses
are the `pages` input; once they are exhausted the exchange returns
empty pages, so one final sort happens and the loop exits. -/
def getTradesLoop (pages : List (List RawTrade)) (trades : List TradeRec)
    (query_timestamp : ℚ) (trades_n : ℕ) : List TradeRec :=
  if trades_n = 1000 then
    match pages with
    | [] => sortByTs trades
    | page :: rest =>
        let r := getTradesCall page query_timestamp
        getTradesLoop rest (sortByTs (trades ++ r.1)) r.2 r.1.length
  else trades

/-- `TechnicalAnalysis.get_trades` (lines 134-186): choose the cursor and
kept records, filter the kept records to `timestamp >= from_timestamp`,
append the zero-rate sentinel at `from_timestamp`, run the polling loop
(entered with `trades_n = 1000`), and return everything but the first
element of the sorted accumulator. -/
def get_trades (prev_trades : List TradeRec) (from_timestamp : ℚ)
    (pages : List (List RawTrade)) : Except PyError (List TradeRec) :=
  match chooseQueryStart prev_trades from_timestamp with
  | .error e => .error e
  | .ok (query_timestamp, kept) =>
      let trades := kept.filter (fun t => from_timestamp ≤ t.timestamp)
      let trades := trades ++ [⟨from_timestamp, 0, 0⟩]
      let result := getTradesLoop pages trades query_timestamp 1000
      .ok (result.drop 1)

/-- Ascending order by timestamp (adjacent-pairs check), the "sorted
ascending" notion of the spec's store-validation step. -/
def sortedByTs : List TradeRec → Bool
  | [] => true
  | [_] => true
  | x :: y :: rest => (x.timestamp ≤ y.timestamp) && sortedByTs (y :: rest)

theorem balanceLoop_ok_eq (currency : String) (markets : List Market) :
    ∀ (orders : List KrakenOpenOrder) (free used f u : ℚ),
      balanceLoop currency markets free used orders = .ok (f, u) →
      f = free - committedSum currency markets orders ∧
        u = used + committedSum currency markets orders := by
  intro orders
  induction orders with
  | nil =>
      intro free used f u h
      simp [balanceLoop] at h
      simp [committedSum, h.1, h.2]
  | cons o rest ih =>
      intro free used f u h
      have hcs : committedSum currency markets (o :: rest)
          = orderCommitment currency markets o + committedSum currency markets rest := by
        simp [committedSum]
      simp only [balanceLoop] at h
      split at h
      · exact absurd h (by simp)
      · rename_i m heq
        split at h
        · rename_i h₁
          have := ih (free - o.vol) (used + o.vol) f u h
          have hoc : orderCommitment currency markets o = o.vol := by
            simp [orderCommitment, heq, if_pos h₁]
          constructor
          · rw [this.1, hcs, hoc]; ring
          · rw [this.2, hcs, hoc]; ring
        · rename_i h₁
          split at h
          · rename_i h₂
            have := ih (free - o.vol * o.price) (used + o.vol * o.price) f u h
            have hoc : orderCommitment currency markets o = o.vol * o.price := by
              simp [orderCommitment, heq, if_neg h₁, if_pos h₂]
            constructor
            · rw [this.1, hcs, hoc]; ring
            · rw [this.2, hcs, hoc]; ring
          · rename_i h₂
            have := ih free used f u h
            have hoc : orderCommitment currency markets o = 0 := by
              simp [orderCommitment, heq, if_neg h₁, if_neg h₂]
            constructor
            · rw [this.1, hcs, hoc]; ring
            · rw [this.2, hcs, hoc]; ring

/-- C1: when the exchange reports only a total balance, `_balance` starts
from `free = total`, `used = 0` and commits, per open order, the full
amount for a SELL in the wallet currency when it is the order's market
base, and amount × price for a BUY when it is the market quote, so that
`used` is the committed sum and `free = total - used`. -/
theorem kraken_balance_commits (currency : String) (markets : List Market)
    (balanceResult : List (String × ℚ)) (orders : List KrakenOpenOrder)
    (total : ℚ) (b : Balance)
    (htotal : alistGet balanceResult (parse_common_currency_rev currency) = some total)
    (hok : kraken_balance currency markets balanceResult orders = .ok b) :
    b.total = ⟨total, currency⟩ ∧
      b.used = ⟨committedSum currency markets orders, currency⟩ ∧
      b.free = ⟨total - committedSum currency markets orders, currency⟩ := by
  simp only [kraken_balance, htotal] at hok
  split at hok
  · exact absurd hok (by simp)
  · rename_i free used heq
    have hfu := balanceLoop_ok_eq currency markets orders total 0 free used heq
    injection hok with hb
    subst hb
    exact ⟨rfl, by rw [hfu.2, zero_add], by rw [hfu.1]⟩

/-- C1 witness: a total of 10 BTC and one open SELL order for 3 BTC in the
BTC/USD market yield Balance total 10, used 3, free 7 BTC. -/
theorem kraken_balance_commits_witness :
    alistGet [("XXBT", (10 : ℚ))] (parse_common_currency_rev "BTC") = some 10 ∧
    kraken_balance "BTC" [⟨"BTC", "USD"⟩] [("XXBT", 10)] [⟨"XXBTZUSD", Side.sell, 3, 100⟩]
        = .ok ⟨⟨10, "BTC"⟩, ⟨7, "BTC"⟩, ⟨3, "BTC"⟩, none⟩ ∧
    ((⟨⟨10, "BTC"⟩, ⟨7, "BTC"⟩, ⟨3, "BTC"⟩, none⟩ : Balance).total = ⟨10, "BTC"⟩ ∧
      (⟨⟨10, "BTC"⟩, ⟨7, "BTC"⟩, ⟨3, "BTC"⟩, none⟩ : Balance).used
        = ⟨committedSum "BTC" [⟨"BTC", "USD"⟩] [⟨"XXBTZUSD", Side.sell, 3, 100⟩], "BTC"⟩ ∧
      (⟨⟨10, "BTC"⟩, ⟨7, "BTC"⟩, ⟨3, "BTC"⟩, none⟩ : Balance).free
        = ⟨10 - committedSum "BTC" [⟨"BTC", "USD"⟩] [⟨"XXBTZUSD", Side.sell, 3, 100⟩], "BTC"⟩) :=
  ⟨by with_unfolding_all rfl, by with_unfolding_all rfl,
    kraken_balance_commits "BTC" [⟨"BTC", "USD"⟩] [("XXBT", 10)]
      [⟨"XXBTZUSD", Side.sell, 3, 100⟩] 10 ⟨⟨10, "BTC"⟩, ⟨7, "BTC"⟩, ⟨3, "BTC"⟩, none⟩
      (by with_unfolding_all rfl) (by with_unfolding_all rfl)⟩

/-- C2: every `Balance` the Kraken wallet computation produces satisfies
`total = free + used`, over any reported total and any open orders. -/
theorem kraken_balance_invariant (currency : String) (markets : List Market)
    (balanceResult : List (String × ℚ)) (orders : List KrakenOpenOrder) (b : Balance)
    (hok : kraken_balance currency markets balanceResult orders = .ok b) :
    b.total.amount = b.free.amount + b.used.amount := by
  simp only [kraken_balance] at hok
  split at hok
  · injection hok with hb
    subst hb
    norm_num
  · rename_i total htotal
    split at hok
    · exact absurd hok (by simp)
    · rename_i free used heq
      have hfu := balanceLoop_ok_eq currency markets orders total 0 free used heq
      injection hok with hb
      subst hb
      show total = free + used
      rw [hfu.1, hfu.2]
      ring

/-- C2 witness: a 1000 USD total with one open BUY order of 2 BTC at 100
USD gives Balance total 1000, free 800, used 200, and 1000 = 800 + 200. -/
theorem kraken_balance_invariant_witness :
    kraken_balance "USD" [⟨"BTC", "USD"⟩] [("ZUSD", 1000)] [⟨"XXBTZUSD", Side.buy, 2, 100⟩]
        = .ok ⟨⟨1000, "USD"⟩, ⟨800, "USD"⟩, ⟨200, "USD"⟩, none⟩ ∧
    (⟨⟨1000, "USD"⟩, ⟨800, "USD"⟩, ⟨200, "USD"⟩, none⟩ : Balance).total.amount
        = (⟨⟨1000, "USD"⟩, ⟨800, "USD"⟩, ⟨200, "USD"⟩, none⟩ : Balance).free.amount
          + (⟨⟨1000, "USD"⟩, ⟨800, "USD"⟩, ⟨200, "USD"⟩, none⟩ : Balance).used.amount :=
  ⟨by with_unfolding_all rfl,
    kraken_balance_invariant "USD" [⟨"BTC", "USD"⟩] [("ZUSD", 1000)]
      [⟨"XXBTZUSD", Side.buy, 2, 100⟩] ⟨⟨1000, "USD"⟩, ⟨800, "USD"⟩, ⟨200, "USD"⟩, none⟩
      (by with_unfolding_all rfl)⟩

/-- C10: when the wallet currency's exchange asset code is absent from the
balance response, `_balance` returns an all-zero `Balance` carrying the
"balance not found" note, for every open-orders list (the orders are never
consulted). -/
theorem kraken_balance_missing_asset (currency : String) (markets : List Market)
    (balanceResult : List (String × ℚ)) (orders : List KrakenOpenOrder)
    (hmiss : alistGet balanceResult (parse_common_currency_rev currency) = none) :
    kraken_balance currency markets balanceResult orders
      = .ok ⟨⟨0, currency⟩, ⟨0, currency⟩, ⟨0, currency⟩, some "balance not found"⟩ := by
  simp [kraken_balance, hmiss]

/-- C10 witness: a BTC wallet against a balance response holding only ZUSD
returns the zero balance with the note, open orders notwithstanding. -/
theorem kraken_balance_missing_asset_witness :
    alistGet [("ZUSD", (5 : ℚ))] (parse_common_currency_rev "BTC") = none ∧
    kraken_balance "BTC" [⟨"BTC", "USD"⟩] [("ZUSD", 5)] [⟨"XXBTZUSD", Side.sell, 3, 100⟩]
        = .ok ⟨⟨0, "BTC"⟩, ⟨0, "BTC"⟩, ⟨0, "BTC"⟩, some "balance not found"⟩ :=
  ⟨by with_unfolding_all rfl,
    kraken_balance_missing_asset "BTC" [⟨"BTC", "USD"⟩] [("ZUSD", 5)]
      [⟨"XXBTZUSD", Side.sell, 3, 100⟩] (by with_unfolding_all rfl)⟩

/-- C9: every parsed ticker's `mid` is `(bid + ask) / 2` in the market's
quote currency. -/
theorem kraken_parse_ticker_mid (market : Market) (t : KrakenTickerPayload) (tk : Ticker)
    (hok : kraken_parse_ticker market t = some tk) :
    tk.mid.amount = (t.b + t.a) / 2 ∧ tk.mid.currency = market.quote := by
  simp only [kraken_parse_ticker, moneyAdd, if_pos] at hok
  injection hok with hb
  subst hb
  exact ⟨rfl, rfl⟩

/-- C9 witness: bid 100 and ask 102 parse to mid 101 in the quote
currency. -/
theorem kraken_parse_ticker_mid_witness :
    kraken_parse_ticker ⟨"BTC", "USD"⟩ ⟨100, 102, 101, none, 110, 90, 100⟩
        = some ⟨⟨"BTC", "USD"⟩, ⟨100, "USD"⟩, ⟨102, "USD"⟩, ⟨101, "USD"⟩, ⟨101, "USD"⟩, none,
            ⟨110, "USD"⟩, ⟨90, "USD"⟩, ⟨101, "USD"⟩, none, none, none, ⟨100, "USD"⟩⟩ ∧
    ((⟨⟨"BTC", "USD"⟩, ⟨100, "USD"⟩, ⟨102, "USD"⟩, ⟨101, "USD"⟩, ⟨101, "USD"⟩, none,
        ⟨110, "USD"⟩, ⟨90, "USD"⟩, ⟨101, "USD"⟩, none, none, none, ⟨100, "USD"⟩⟩ : Ticker).mid.amount
        = (100 + 102) / 2 ∧
      (⟨⟨"BTC", "USD"⟩, ⟨100, "USD"⟩, ⟨102, "USD"⟩, ⟨101, "USD"⟩, ⟨101, "USD"⟩, none,
        ⟨110, "USD"⟩, ⟨90, "USD"⟩, ⟨101, "USD"⟩, none, none, none, ⟨100, "USD"⟩⟩ : Ticker).mid.currency
        = "USD") :=
  ⟨by with_unfolding_all rfl,
    kraken_parse_ticker_mid ⟨"BTC", "USD"⟩ ⟨100, 102, 101, none, 110, 90, 100⟩
      ⟨⟨"BTC", "USD"⟩, ⟨100, "USD"⟩, ⟨102, "USD"⟩, ⟨101, "USD"⟩, ⟨101, "USD"⟩, none,
        ⟨110, "USD"⟩, ⟨90, "USD"⟩, ⟨101, "USD"⟩, none, none, none, ⟨100, "USD"⟩⟩
      (by with_unfolding_all rfl)⟩

/-- C8: whenever a Kraken order payload carries both `vol` and `vol_exec`,
the parsed order satisfies `remaining = amount - filled` (all three in
the market's base currency). -/
theorem kraken_parse_order_remaining (markets : List Market) (p : KrakenOrderPayload)
    (ord : Order) (v f : ℚ)
    (hok : kraken_parse_order markets p = .ok ord)
    (hv : p.vol = some v) (hf : p.vol_exec = some f) :
    ord.amount = some ⟨v, ord.market.base⟩ ∧
      ord.filled = some ⟨f, ord.market.base⟩ ∧
      ord.remaining = some ⟨v - f, ord.market.base⟩ := by
  simp only [kraken_parse_order] at hok
  split at hok
  · exact absurd hok (by simp)
  · injection hok with hb
    subst hb
    simp [safe_money, moneySub, hv, hf]

/-- C8 witness: a payload with vol 2 and vol_exec 1 parses to amount 2 BTC,
filled 1 BTC, remaining 1 BTC. -/
theorem kraken_parse_order_remaining_witness :
    kraken_parse_order [⟨"BTC", "USD"⟩]
        ⟨some "OTEST", Side.sell, "limit", "XXBTZUSD", some 100, none, 0,
          some 2, some 1, none, none, none, "", "open"⟩
        = .ok ⟨some "OTEST", ⟨"BTC", "USD"⟩, some OrderType.limit, Side.sell, "open",
            some ⟨2, "BTC"⟩, some ⟨1, "BTC"⟩, some ⟨1, "BTC"⟩, none, none, some ⟨100, "USD"⟩, 0⟩ ∧
    ((⟨some "OTEST", ⟨"BTC", "USD"⟩, some OrderType.limit, Side.sell, "open",
        some ⟨2, "BTC"⟩, some ⟨1, "BTC"⟩, some ⟨1, "BTC"⟩, none, none, some ⟨100, "USD"⟩, 0⟩ :
          Order).amount
        = some ⟨2, (⟨some "OTEST", ⟨"BTC", "USD"⟩, some OrderType.limit, Side.sell, "open",
            some ⟨2, "BTC"⟩, some ⟨1, "BTC"⟩, some ⟨1, "BTC"⟩, none, none, some ⟨100, "USD"⟩, 0⟩ :
              Order).market.base⟩ ∧
      (⟨some "OTEST", ⟨"BTC", "USD"⟩, some OrderType.limit, Side.sell, "open",
        some ⟨2, "BTC"⟩, some ⟨1, "BTC"⟩, some ⟨1, "BTC"⟩, none, none, some ⟨100, "USD"⟩, 0⟩ :
          Order).filled
        = some ⟨1, (⟨some "OTEST", ⟨"BTC", "USD"⟩, some OrderType.limit, Side.sell, "open",
            some ⟨2, "BTC"⟩, some ⟨1, "BTC"⟩, some ⟨1, "BTC"⟩, none, none, some ⟨100, "USD"⟩, 0⟩ :
              Order).market.base⟩ ∧
      (⟨some "OTEST", ⟨"BTC", "USD"⟩, some OrderType.limit, Side.sell, "open",
        some ⟨2, "BTC"⟩, some ⟨1, "BTC"⟩, some ⟨1, "BTC"⟩, none, none, some ⟨100, "USD"⟩, 0⟩ :
          Order).remaining
        = some ⟨2 - 1, (⟨some "OTEST", ⟨"BTC", "USD"⟩, some OrderType.limit, Side.sell, "open",
            some ⟨2, "BTC"⟩, some ⟨1, "BTC"⟩, some ⟨1, "BTC"⟩, none, none, some ⟨100, "USD"⟩, 0⟩ :
              Order).market.base⟩) :=
  ⟨by with_unfolding_all rfl,
    kraken_parse_order_remaining [⟨"BTC", "USD"⟩]
      ⟨some "OTEST", Side.sell, "limit", "XXBTZUSD", some 100, none, 0,
        some 2, some 1, none, none, none, "", "open"⟩
      ⟨some "OTEST", ⟨"BTC", "USD"⟩, some OrderType.limit, Side.sell, "open",
        some ⟨2, "BTC"⟩, some ⟨1, "BTC"⟩, some ⟨1, "BTC"⟩, none, none, some ⟨100, "USD"⟩, 0⟩
      2 1 (by with_unfolding_all rfl) rfl rfl⟩

/-- C7 counterexample: `_trades_since` raises `NotImplementedError`, not
`NotSupported`, so the claim that every listed unsupported Kraken
operation fails with `NotSupported` is false at `trades_since`. -/
theorem kraken_trades_since_raises_notImplemented :
    isNotSupportedErr (kraken_trades_since 0) = false ∧
    kraken_trades_since 0 = .error (.notImplementedError none) :=
  ⟨rfl, rfl⟩

/-- C7 as amended: trading fees, batch cancel, deposits_since and
withdrawals_since fail with `NotSupported`; trades_since also fails (never
a silent empty result) but with `NotImplementedError`. -/
theorem kraken_unsupported_ops (s₁ s₂ s₃ : ℤ) (ids : Option (List String)) :
    isNotSupportedErr kraken_trading_fees = true ∧
    isNotSupportedErr (kraken_cancel_orders ids) = true ∧
    isNotSupportedErr (kraken_deposits_since s₁) = true ∧
    isNotSupportedErr (kraken_withdrawals_since s₂) = true ∧
    kraken_trades_since s₃ = .error (.notImplementedError none) :=
  ⟨rfl, rfl, rfl, rfl, rfl⟩

/-- C6 counterexample: with published markets BTC/USD and ETH/CLP, no
market pairs BTC and CLP in either order, yet resolution returns
Market(BTC, CLP) instead of failing. -/
theorem anyToAny_get_market_unpaired_ok :
    marketPairs [⟨"BTC", "USD"⟩, ⟨"ETH", "CLP"⟩] "BTC" "CLP" = false ∧
    anyToAny_get_market [⟨"BTC", "USD"⟩, ⟨"ETH", "CLP"⟩] "BTC" "CLP" = .ok ⟨"BTC", "CLP"⟩ :=
  ⟨by with_unfolding_all rfl, by with_unfolding_all rfl⟩

/-- C6 as amended: resolution returns Market(X, Y) whenever (X, Y) is
published; it returns Market(Y, X) when (Y, X) is published and the
first membership test (X among published bases and Y among published
quotes) fails; and it fails with a catchable `NotImplementedError` when
neither independent membership test passes. -/
theorem anyToAny_get_market_cases (markets : List Market) (x y : String) :
    (Market.mk x y ∈ markets → anyToAny_get_market markets x y = .ok ⟨x, y⟩) ∧
    (Market.mk y x ∈ markets →
      ¬(x ∈ markets.map Market.base ∧ y ∈ markets.map Market.quote) →
      anyToAny_get_market markets x y = .ok ⟨y, x⟩) ∧
    (¬(x ∈ markets.map Market.base ∧ y ∈ markets.map Market.quote) →
      ¬(x ∈ markets.map Market.quote ∧ y ∈ markets.map Market.base) →
      anyToAny_get_market markets x y
        = .error (.notImplementedError (some "No compatible market found!"))) := by
  refine ⟨?_, ?_, ?_⟩
  · intro hmem
    have hx : x ∈ markets.map Market.base := List.mem_map_of_mem Market.base hmem
    have hy : y ∈ markets.map Market.quote := List.mem_map_of_mem Market.quote hmem
    simp only [anyToAny_get_market]
    rw [if_pos ⟨hx, hy⟩]
  · intro hmem hneg
    have hx : x ∈ markets.map Market.quote := List.mem_map_of_mem Market.quote hmem
    have hy : y ∈ markets.map Market.base := List.mem_map_of_mem Market.base hmem
    simp only [anyToAny_get_market]
    rw [if_neg hneg, if_pos ⟨hx, hy⟩]
  · intro h1 h2
    simp only [anyToAny_get_market]
    rw [if_neg h1, if_neg h2]

/-- C6 witness: with only BTC/USD published, resolving (USD, BTC) returns
the reversed market BTC/USD. -/
theorem anyToAny_get_market_cases_witness :
    Market.mk "BTC" "USD" ∈ [Market.mk "BTC" "USD"] ∧
    ¬("USD" ∈ [Market.mk "BTC" "USD"].map Market.base ∧
        "BTC" ∈ [Market.mk "BTC" "USD"].map Market.quote) ∧
    anyToAny_get_market [Market.mk "BTC" "USD"] "USD" "BTC" = .ok ⟨"BTC", "USD"⟩ :=
  ⟨by simp, by simp,
    (anyToAny_get_market_cases [Market.mk "BTC" "USD"] "USD" "BTC").2.1 (by simp) (by simp)⟩

/-- C3 counterexample: a single-element stored list is sorted and the
requested timestamp is not strictly inside its (empty) interior, so the
claim prescribes discarding and starting from the requested timestamp;
the code instead fails its `first_trade < last_trade` assertion. -/
theorem chooseQueryStart_singleton_asserts :
    chooseQueryStart [⟨5, 1, 1⟩] 3 = .error .assertionError ∧
    (Except.error PyError.assertionError : Except PyError (ℚ × List TradeRec)) ≠ .ok (3, []) :=
  ⟨by with_unfolding_all rfl, by simp⟩

/-- C3 as amended: provided the stored list is empty or its first
timestamp is strictly below its last, the helper resumes from the last
stored timestamp keeping the records exactly when the requested timestamp
lies strictly inside the stored range, and otherwise starts from the
requested timestamp with the records discarded; remaining non-empty lists
fail the assertion instead. -/
theorem chooseQueryStart_spec (prev_trades : List TradeRec) (from_timestamp : ℚ)
    (hvalid : prev_trades = [] ∨ firstTs prev_trades < lastTs prev_trades) :
    chooseQueryStart prev_trades from_timestamp =
      if prev_trades ≠ [] ∧ firstTs prev_trades < from_timestamp ∧
          from_timestamp < lastTs prev_trades
      then .ok (lastTs prev_trades, prev_trades)
      else .ok (from_timestamp, []) := by
  rcases hvalid with h | h
  · subst h
    simp [chooseQueryStart]
  · have hne : prev_trades ≠ [] := by
      intro he
      rw [he] at h
      simp [firstTs, lastTs] at h
    simp only [chooseQueryStart]
    rw [if_neg hne, if_pos h]
    by_cases hin : firstTs prev_trades < from_timestamp ∧ from_timestamp < lastTs prev_trades
    · rw [if_pos hin, if_pos ⟨hne, hin.1, hin.2⟩]
    · rw [if_neg hin, if_neg (by tauto)]

/-- C3 witness: stored timestamps 1 and 5 with requested timestamp 3
resume from 5 and keep the records. -/
theorem chooseQueryStart_spec_witness :
    ([(⟨1, 1, 1⟩ : TradeRec), ⟨5, 1, 1⟩] = [] ∨
      firstTs [⟨1, 1, 1⟩, ⟨5, 1, 1⟩] < lastTs [⟨1, 1, 1⟩, ⟨5, 1, 1⟩]) ∧
    chooseQueryStart [⟨1, 1, 1⟩, ⟨5, 1, 1⟩] 3 =
      if [(⟨1, 1, 1⟩ : TradeRec), ⟨5, 1, 1⟩] ≠ [] ∧
          firstTs [⟨1, 1, 1⟩, ⟨5, 1, 1⟩] < 3 ∧ (3 : ℚ) < lastTs [⟨1, 1, 1⟩, ⟨5, 1, 1⟩]
      then .ok (lastTs [⟨1, 1, 1⟩, ⟨5, 1, 1⟩], [⟨1, 1, 1⟩, ⟨5, 1, 1⟩])
      else .ok (3, []) :=
  ⟨Or.inr (by show (1 : ℚ) < 5; norm_num),
    chooseQueryStart_spec [⟨1, 1, 1⟩, ⟨5, 1, 1⟩] 3 (Or.inr (by show (1 : ℚ) < 5; norm_num))⟩

/-- C5 counterexample: the stored list with timestamps 1, 5, 3, 7 is not
sorted ascending, yet loading proceeds (the helper resumes from 7 and
keeps the unsorted records) because only the ends are compared. -/
theorem chooseQueryStart_unsorted_proceeds :
    sortedByTs [⟨1, 1, 1⟩, ⟨5, 1, 1⟩, ⟨3, 1, 1⟩, ⟨7, 1, 1⟩] = false ∧
    [(⟨1, 1, 1⟩ : TradeRec), ⟨5, 1, 1⟩, ⟨3, 1, 1⟩, ⟨7, 1, 1⟩] ≠ [] ∧
    chooseQueryStart [⟨1, 1, 1⟩, ⟨5, 1, 1⟩, ⟨3, 1, 1⟩, ⟨7, 1, 1⟩] 2
      = .ok (7, [⟨1, 1, 1⟩, ⟨5, 1, 1⟩, ⟨3, 1, 1⟩, ⟨7, 1, 1⟩]) :=
  ⟨by with_unfolding_all rfl, by simp, by with_unfolding_all rfl⟩

/-- C5 as amended: a non-empty stored list whose first timestamp is not
strictly below its last fails loudly with an `AssertionError`; unsorted
interiors with increasing ends are not detected. -/
theorem chooseQueryStart_raises_on_bad_ends (prev_trades : List TradeRec)
    (from_timestamp : ℚ) (hne : prev_trades ≠ [])
    (hbad : ¬ firstTs prev_trades < lastTs prev_trades) :
    chooseQueryStart prev_trades from_timestamp = .error .assertionError := by
  simp only [chooseQueryStart]
  rw [if_neg hne, if_neg hbad]

/-- C5 witness: a stored list sorted descending (timestamps 5 then 1)
raises the assertion. -/
theorem chooseQueryStart_raises_on_bad_ends_witness :
    [(⟨5, 1, 1⟩ : TradeRec), ⟨1, 1, 1⟩] ≠ [] ∧
    ¬ firstTs [⟨5, 1, 1⟩, ⟨1, 1, 1⟩] < lastTs [⟨5, 1, 1⟩, ⟨1, 1, 1⟩] ∧
    chooseQueryStart [⟨5, 1, 1⟩, ⟨1, 1, 1⟩] 0 = .error .assertionError :=
  ⟨by simp, by show ¬ (5 : ℚ) < 1; norm_num,
    chooseQueryStart_raises_on_bad_ends [⟨5, 1, 1⟩, ⟨1, 1, 1⟩] 0 (by simp)
      (by show ¬ (5 : ℚ) < 1; norm_num)⟩

/-- C4: evaluation of `get_trades` at the failing input.  Stored trades at
timestamps 0, 5 and 10, requested timestamp 5 and one empty exchange page:
the stored trade at timestamp 5 ties with the zero-rate sentinel, the
stable sort keeps the real trade first, and `trades[1:]` drops the real
trade while returning the sentinel. -/
theorem get_trades_keeps_sentinel :
    get_trades [⟨0, 1, 1⟩, ⟨5, 2, 1⟩, ⟨10, 3, 1⟩] 5 [[]]
        = .ok [⟨5, 0, 0⟩, ⟨10, 3, 1⟩] ∧
    (⟨5, 0, 0⟩ : TradeRec) ∈ [(⟨5, 0, 0⟩ : TradeRec), ⟨10, 3, 1⟩] ∧
    (⟨5, 2, 1⟩ : TradeRec) ∉ [(⟨5, 0, 0⟩ : TradeRec), ⟨10, 3, 1⟩] :=
  ⟨by with_unfolding_all rfl, by simp, by simp⟩

end TradingBots
